import Mathlib

/-!
# Verification of the WebIDL type-normalization and overload-expansion core

This development embeds `crates/webidl/src/idl_type.rs`: the canonical IDL
type model (`IdlType`), the union/generic flattener (`IdlType.flatten`),
the argument-list expander (the free function `flatten`), the descriptive
snake-case name rendering (`push_type_name` / `get_type_name`), the
target-type-token mapping (`to_syn_type`), and the resolver from parsed
(weedle) AST nodes to canonical types (`to_idl_type`), and proves the
specified properties about them.
-/

set_option maxHeartbeats 1000000

namespace Webidl

/-- The canonical IDL type representation, embedding the Rust enum
`IdlType` (which is lifetime-parameterized over the parse pass).
Borrowed string payloads become `String`. -/
inductive IdlType where
  | Boolean
  | Byte
  | Octet
  | Short
  | UnsignedShort
  | Long
  | UnsignedLong
  | LongLong
  | UnsignedLongLong
  | Float
  | UnrestrictedFloat
  | Double
  | UnrestrictedDouble
  | DomString
  | ByteString
  | UsvString
  | Object
  | Symbol
  | Error
  | ArrayBuffer
  | DataView
  | Int8Array
  | Uint8Array
  | Uint8ClampedArray
  | Int16Array
  | Uint16Array
  | Int32Array
  | Uint32Array
  | Float32Array
  | Float64Array
  | Interface (name : String)
  | Dictionary (name : String)
  | Enum (name : String)
  | Nullable (inner : IdlType)
  | FrozenArray (inner : IdlType)
  | Sequence (inner : IdlType)
  | Promise (inner : IdlType)
  | Record (key : IdlType) (value : IdlType)
  | Union (types : List IdlType)
  | Any
  | Void
deriving Repr

/-- `true` iff the type contains no `Union` variant anywhere in its
structure (recursively).  This is the notion of a union-free type used
by the spec to state the flattening properties. -/
def IdlType.union_free : IdlType → Bool
  | .Nullable t => t.union_free
  | .FrozenArray t => t.union_free
  | .Sequence t => t.union_free
  | .Promise t => t.union_free
  | .Record a b => a.union_free && b.union_free
  | .Union _ => false
  | _ => true

mutual

/-- Spec §3 invariant on canonical types: the member list of a union
variant is never itself collapsed to zero or one element before
flattening runs, i.e. every union node carries at least two members,
recursively. -/
def IdlType.canonical : IdlType → Bool
  | .Nullable t => t.canonical
  | .FrozenArray t => t.canonical
  | .Sequence t => t.canonical
  | .Promise t => t.canonical
  | .Record a b => a.canonical && b.canonical
  | .Union ts => decide (2 ≤ ts.length) && IdlType.canonicalList ts
  | _ => true

/-- Every member of the list satisfies `IdlType.canonical`. -/
def IdlType.canonicalList : List IdlType → Bool
  | [] => true
  | t :: ts => t.canonical && IdlType.canonicalList ts

end

mutual

/-- Embeds `IdlType::flatten` (idl_type.rs lines 502-549): flattens unions
recursively, also through the generic parameters of nullable, frozen-array,
sequence, promise and record. -/
def IdlType.flatten : IdlType → List IdlType
  | .Nullable idl_type =>
      idl_type.flatten.map IdlType.Nullable
  | .FrozenArray idl_type =>
      idl_type.flatten.map IdlType.FrozenArray
  | .Sequence idl_type =>
      idl_type.flatten.map IdlType.Sequence
  | .Promise idl_type =>
      idl_type.flatten.map IdlType.Promise
  | .Record idl_type_from idl_type_to =>
      -- the Rust builds the cross product with two nested loops,
      -- outer over the flattened key, inner over the flattened value
      (idl_type_from.flatten).flatMap fun k =>
        (idl_type_to.flatten).map fun v => IdlType.Record k v
  | .Union idl_types => IdlType.flattenList idl_types
  | idl_type => [idl_type]

/-- The `Union` arm of `IdlType::flatten`: `flat_map` of `flatten` over
the member list, i.e. the concatenation of the flattenings of the
members in source order. -/
def IdlType.flattenList : List IdlType → List IdlType
  | [] => []
  | t :: ts => t.flatten ++ IdlType.flattenList ts

end

/-- One step of the loop body of the free function `flatten`
(idl_type.rs lines 608-621).  The state is the pair
`(optional_possibilities, possibilities)`; `arg` is the current
`(IdlType, bool)` argument descriptor. -/
def flattenStep (state : List (List IdlType) × List (List IdlType))
    (arg : IdlType × Bool) : List (List IdlType) × List (List IdlType) :=
  let optional_possibilities :=
    if arg.2 then state.1 ++ state.2 else state.1
  let possibilities :=
    state.2.flatMap fun old_idl_types =>
      (arg.1.flatten).map fun idl_type => old_idl_types ++ [idl_type]
  (optional_possibilities, possibilities)

/-- Embeds the free function `flatten` (idl_type.rs lines 599-624):
converts an argument list (each argument a pair of its idl type and
whether it is optional) into the list of union-free call-signature
possibilities. -/
def flatten (arguments : List (IdlType × Bool)) : List (List IdlType) :=
  match arguments with
  | [] => [[]]
  | arg0 :: rest =>
    let optional_possibilities : List (List IdlType) :=
      if arg0.2 then [[]] else []
    let possibilities : List (List IdlType) :=
      (arg0.1.flatten).map fun idl_type => [idl_type]
    let final := rest.foldl flattenStep (optional_possibilities, possibilities)
    final.1 ++ final.2

mutual

/-- Embeds `IdlType::push_type_name` (idl_type.rs lines 340-416).  The
Rust method appends to a mutable `String` `dst`; here the updated buffer
is returned.  `to_snake_case` stands for the external `heck::SnakeCase`
casing utility applied to interface/dictionary/enum names (identifier
casing is an external collaborator of this core). -/
def IdlType.push_type_name (to_snake_case : String → String) :
    IdlType → String → String
  | .Boolean, dst => dst ++ "bool"
  | .Byte, dst => dst ++ "i8"
  | .Octet, dst => dst ++ "u8"
  | .Short, dst => dst ++ "i16"
  | .UnsignedShort, dst => dst ++ "u16"
  | .Long, dst => dst ++ "i32"
  | .UnsignedLong, dst => dst ++ "u32"
  | .LongLong, dst => dst ++ "i64"
  | .UnsignedLongLong, dst => dst ++ "u64"
  | .Float, dst => dst ++ "f32"
  | .UnrestrictedFloat, dst => dst ++ "unrestricted_f32"
  | .Double, dst => dst ++ "f64"
  | .UnrestrictedDouble, dst => dst ++ "unrestricted_f64"
  | .DomString, dst => dst ++ "dom_str"
  | .ByteString, dst => dst ++ "byte_str"
  | .UsvString, dst => dst ++ "usv_str"
  | .Object, dst => dst ++ "object"
  | .Symbol, dst => dst ++ "symbol"
  | .Error, dst => dst ++ "error"
  | .ArrayBuffer, dst => dst ++ "array_buffer"
  | .DataView, dst => dst ++ "data_view"
  | .Int8Array, dst => dst ++ "i8_array"
  | .Uint8Array, dst => dst ++ "u8_array"
  | .Uint8ClampedArray, dst => dst ++ "u8_clamped_array"
  | .Int16Array, dst => dst ++ "i16_array"
  | .Uint16Array, dst => dst ++ "u16_array"
  | .Int32Array, dst => dst ++ "i32_array"
  | .Uint32Array, dst => dst ++ "u32_array"
  | .Float32Array, dst => dst ++ "f32_array"
  | .Float64Array, dst => dst ++ "f64_array"
  | .Interface name, dst => dst ++ to_snake_case name
  | .Dictionary name, dst => dst ++ to_snake_case name
  | .Enum name, dst => dst ++ to_snake_case name
  | .Nullable idl_type, dst =>
      idl_type.push_type_name to_snake_case (dst ++ "opt_")
  | .FrozenArray idl_type, dst =>
      idl_type.push_type_name to_snake_case dst ++ "_frozen_array"
  | .Sequence idl_type, dst =>
      idl_type.push_type_name to_snake_case dst ++ "_sequence"
  | .Promise idl_type, dst =>
      idl_type.push_type_name to_snake_case dst ++ "_promise"
  | .Record idl_type_from idl_type_to, dst =>
      idl_type_to.push_type_name to_snake_case
        (idl_type_from.push_type_name to_snake_case (dst ++ "record_from_")
          ++ "_to_")
  | .Union idl_types, dst =>
      IdlType.pushUnionNames to_snake_case idl_types true (dst ++ "union_of_")
  | .Any, dst => dst ++ "any"
  | .Void, dst => dst ++ "void"

/-- The `Union` loop of `push_type_name`: renders the members separated
by `_and_`, the `first` flag suppressing the separator before the first
member exactly as in the Rust loop. -/
def IdlType.pushUnionNames (to_snake_case : String → String) :
    List IdlType → Bool → String → String
  | [], _, dst => dst
  | idl_type :: rest, first, dst =>
      let dst := if first then dst else dst ++ "_and_"
      IdlType.pushUnionNames to_snake_case rest false
        (idl_type.push_type_name to_snake_case dst)

end

/-- Embeds `IdlType::get_type_name` (idl_type.rs lines 420-424). -/
def IdlType.get_type_name (to_snake_case : String → String)
    (t : IdlType) : String :=
  t.push_type_name to_snake_case ""

/-- Usage position of a type, embedding `util::TypePosition`. -/
inductive TypePosition where
  | Argument
  | Return
deriving DecidableEq, Repr

/-- Modelled from the spec: the target-language type expressions produced
by the token-mapping table.  The constructors mirror the helper
constructors used by `to_syn_type` (`ident_ty`/`raw_ident`/`rust_ident`,
`shared_ref`, `leading_colon_path_ty`, `option_ty`, `array`), whose
bodies live in `backend::util` / `util` outside this core; the spec
treats the rendering as a thin mapping table, so only the shape of the
produced expression is modelled. -/
inductive SynType where
  | identTy (name : String)
  | sharedRef (inner : SynType)
  | leadingColonPathTy (segments : List String)
  | optionTy (inner : SynType)
  | array (prim : String) (pos : TypePosition)
deriving Repr

/-- Modelled from the spec: `ident_ty (raw_ident s)` — a plain type
identifier token. -/
def ident_ty (name : String) : SynType := SynType.identTy name

/-- Modelled from the spec: `shared_ref` — a borrowed/read-only view of
the inner type. -/
def shared_ref (t : SynType) : SynType := SynType.sharedRef t

/-- Modelled from the spec: `leading_colon_path_ty` — an absolute path
type such as `::js_sys::Object`. -/
def leading_colon_path_ty (segments : List String) : SynType :=
  SynType.leadingColonPathTy segments

/-- Modelled from the spec: `option_ty` — the optional-value wrapper
around the inner type. -/
def option_ty (t : SynType) : SynType := SynType.optionTy t

/-- Modelled from the spec: `util::array` — the typed-array view of a
primitive, borrowed or owned according to the usage position. -/
def array (prim : String) (pos : TypePosition) : SynType :=
  SynType.array prim pos

/-- Embeds `IdlType::to_syn_type` (idl_type.rs lines 427-494): converts a
canonical type at a usage position to a target (syn) type if possible.
`camel_case_ident` stands for the external identifier-casing utility
applied to interface/dictionary/enum names. -/
def IdlType.to_syn_type (camel_case_ident : String → String) :
    IdlType → TypePosition → Option SynType
  | .Boolean, _ => some (ident_ty "bool")
  | .Byte, _ => some (ident_ty "i8")
  | .Octet, _ => some (ident_ty "u8")
  | .Short, _ => some (ident_ty "i16")
  | .UnsignedShort, _ => some (ident_ty "u16")
  | .Long, _ => some (ident_ty "i32")
  | .UnsignedLong, _ => some (ident_ty "u32")
  | .LongLong, _ => some (ident_ty "i64")
  | .UnsignedLongLong, _ => some (ident_ty "u64")
  | .Float, _ => some (ident_ty "f32")
  | .UnrestrictedFloat, _ => some (ident_ty "f32")
  | .Double, _ => some (ident_ty "f64")
  | .UnrestrictedDouble, _ => some (ident_ty "f64")
  | .DomString, pos | .ByteString, pos | .UsvString, pos =>
      match pos with
      | .Argument => some (shared_ref (ident_ty "str"))
      | .Return => some (ident_ty "String")
  | .Object, _ => some (leading_colon_path_ty ["js_sys", "Object"])
  | .Symbol, _ => none
  | .Error, _ => none
  | .ArrayBuffer, _ => some (leading_colon_path_ty ["js_sys", "ArrayBuffer"])
  | .DataView, _ => none
  | .Int8Array, pos => some (array "i8" pos)
  | .Uint8Array, pos => some (array "u8" pos)
  | .Uint8ClampedArray, pos => some (array "u8" pos)
  | .Int16Array, pos => some (array "i16" pos)
  | .Uint16Array, pos => some (array "u16" pos)
  | .Int32Array, pos => some (array "i32" pos)
  | .Uint32Array, pos => some (array "u32" pos)
  | .Float32Array, pos => some (array "f32" pos)
  | .Float64Array, pos => some (array "f64" pos)
  | .Interface name, pos =>
      let ty := ident_ty (camel_case_ident name)
      if pos = TypePosition.Argument then some (shared_ref ty) else some ty
  | .Dictionary name, _ => some (ident_ty (camel_case_ident name))
  | .Enum name, _ => some (ident_ty (camel_case_ident name))
  | .Nullable idl_type, pos =>
      match idl_type.to_syn_type camel_case_ident pos with
      | none => none
      | some inner => some (option_ty inner)
  | .FrozenArray _, _ => none
  | .Sequence _, _ => none
  | .Promise _, _ => none
  | .Record _ _, _ => none
  | .Union _, _ => none
  | .Any, _ => some (leading_colon_path_ty ["wasm_bindgen", "JsValue"])
  | .Void, _ => none

/-- Follows the words of the spec (§4.3/§7) for comparison with
`to_syn_type`: the canonical types said to have *no* target-type-token
mapping are frozen-array, sequence, promise, record, union, symbol,
error and data-view, with nullable propagating the status of the inner
type.
`Void` is deliberately *not* in this set — exactly as the claim lists
the unrepresentable types. -/
def IdlType.spec_unrepresentable : IdlType → Bool
  | .FrozenArray _ => true
  | .Sequence _ => true
  | .Promise _ => true
  | .Record _ _ => true
  | .Union _ => true
  | .Symbol => true
  | .Error => true
  | .DataView => true
  | .Nullable t => t.spec_unrepresentable
  | _ => false

/-- The amended unrepresentable set: the list given by the spec plus
`void`, with nullable propagating the status of the inner type. -/
def IdlType.unrepresentable : IdlType → Bool
  | .FrozenArray _ => true
  | .Sequence _ => true
  | .Promise _ => true
  | .Record _ _ => true
  | .Union _ => true
  | .Symbol => true
  | .Error => true
  | .DataView => true
  | .Void => true
  | .Nullable t => t.unrepresentable
  | _ => false

/-! ## The parsed (weedle) AST and its resolution to canonical types

The `W`-prefixed inductives embed the weedle AST node types for which
idl_type.rs implements `ToIdlType` (lines 64-336).  A `MayBeNull<T>`
wrapper is embedded as the payload of `T` together with a `q_mark :
Bool` recording whether the `?` marker is present; unit terminal nodes
(`term::*`) carry no payload. -/

/-- weedle `StringType`; each variant is `MayBeNull`-wrapped. -/
inductive WStringType where
  | byte (q_mark : Bool)
  | dom (q_mark : Bool)
  | usv (q_mark : Bool)

/-- weedle `IntegerType` with the `LongLongType`/`LongType`/`ShortType`
payloads inlined as their `unsigned` flag. -/
inductive WIntegerType where
  | longLong (unsigned : Bool)
  | long (unsigned : Bool)
  | short (unsigned : Bool)

/-- weedle `FloatingPointType` with the `FloatType`/`DoubleType`
payloads inlined as their `unrestricted` flag. -/
inductive WFloatingPointType where
  | float (unrestricted : Bool)
  | double (unrestricted : Bool)

mutual

/-- weedle `Type`: a single type or a nullable-capable union. -/
inductive WType where
  | single (t : WSingleType)
  | union (t : WUnionType) (q_mark : Bool)

/-- weedle `SingleType`. -/
inductive WSingleType where
  | any
  | nonAny (t : WNonAnyType)

/-- weedle `NonAnyType`; each `MayBeNull`-wrapped variant carries its
`q_mark`. -/
inductive WNonAnyType where
  | promise (t : WPromiseType)
  | integer (t : WIntegerType) (q_mark : Bool)
  | floatingPoint (t : WFloatingPointType) (q_mark : Bool)
  | boolean (q_mark : Bool)
  | byte (q_mark : Bool)
  | octet (q_mark : Bool)
  | byteString (q_mark : Bool)
  | domString (q_mark : Bool)
  | usvString (q_mark : Bool)
  | sequence (t : WSequenceType) (q_mark : Bool)
  | object (q_mark : Bool)
  | symbol (q_mark : Bool)
  | error (q_mark : Bool)
  | arrayBuffer (q_mark : Bool)
  | dataView (q_mark : Bool)
  | int8Array (q_mark : Bool)
  | int16Array (q_mark : Bool)
  | int32Array (q_mark : Bool)
  | uint8Array (q_mark : Bool)
  | uint16Array (q_mark : Bool)
  | uint32Array (q_mark : Bool)
  | uint8ClampedArray (q_mark : Bool)
  | float32Array (q_mark : Bool)
  | float64Array (q_mark : Bool)
  | frozenArrayType (t : WFrozenArrayType) (q_mark : Bool)
  | recordType (t : WRecordType) (q_mark : Bool)
  | identifier (name : String) (q_mark : Bool)

/-- weedle `SequenceType`: `sequence<T>` with its generic body. -/
inductive WSequenceType where
  | mk (body : WType)

/-- weedle `FrozenArrayType`: `FrozenArray<T>` with its generic body. -/
inductive WFrozenArrayType where
  | mk (body : WType)

/-- weedle `PromiseType`: `Promise<T>` whose generic body is a return
type. -/
inductive WPromiseType where
  | mk (body : WReturnType)

/-- weedle `RecordType`: `record<K, V>` whose generic body is the
(string-typed key, comma, value type) triple; the comma token carries no
information. -/
inductive WRecordType where
  | mk (key : WStringType) (value : WType)

/-- weedle `UnionType`: the parenthesized `or`-separated member list. -/
inductive WUnionType where
  | mk (list : List WUnionMemberType)

/-- weedle `UnionMemberType`. -/
inductive WUnionMemberType where
  | single (t : WNonAnyType)
  | union (t : WUnionType) (q_mark : Bool)

/-- weedle `ReturnType`. -/
inductive WReturnType where
  | void
  | type (t : WType)

end




/-- Modelled from the spec: the Symbol Table (`FirstPassRecord`), an
external collaborator defined in `first_pass.rs` outside this core.  It
exposes typedef lookup (name to underlying parsed type expression) and
the three membership predicates used by identifier resolution
(`interfaces.contains_key`, `dictionaries.contains`, `enums.contains`). -/
structure FirstPassRecord where
  typedefs : String → Option WType
  interfaces : String → Bool
  dictionaries : String → Bool
  enums : String → Bool

/-- Embeds `impl ToIdlType for MayBeNull<T>` (idl_type.rs lines 138-147):
`inner_idl_type` is the result of resolving the wrapped node
(`self.type_.to_idl_type(record)?`), and `q_mark` records whether the
`?` marker is present. -/
def may_be_null (inner_idl_type : Option IdlType) (q_mark : Bool) :
    Option IdlType :=
  match inner_idl_type with
  | none => none
  | some inner_idl_type =>
      if q_mark then some (IdlType.Nullable inner_idl_type)
      else some inner_idl_type

/-- Embeds `impl ToIdlType for IntegerType` together with the
`LongLongType`/`LongType`/`ShortType` impls (idl_type.rs lines 155-193). -/
def WIntegerType.to_idl_type (t : WIntegerType)
    (_record : FirstPassRecord) : Option IdlType :=
  match t with
  | .longLong unsigned =>
      if unsigned then some .UnsignedLongLong else some .LongLong
  | .long unsigned =>
      if unsigned then some .UnsignedLong else some .Long
  | .short unsigned =>
      if unsigned then some .UnsignedShort else some .Short

/-- Embeds `impl ToIdlType for FloatingPointType` together with the
`FloatType`/`DoubleType` impls (idl_type.rs lines 195-222). -/
def WFloatingPointType.to_idl_type (t : WFloatingPointType)
    (_record : FirstPassRecord) : Option IdlType :=
  match t with
  | .float unrestricted =>
      if unrestricted then some .UnrestrictedFloat else some .Float
  | .double unrestricted =>
      if unrestricted then some .UnrestrictedDouble else some .Double

/-- Embeds `impl ToIdlType for StringType` (idl_type.rs lines 235-243)
combined with the `MayBeNull` wrapper of each variant. -/
def WStringType.to_idl_type (t : WStringType)
    (_record : FirstPassRecord) : Option IdlType :=
  match t with
  | .byte q_mark => may_be_null (some .ByteString) q_mark
  | .dom q_mark => may_be_null (some .DomString) q_mark
  | .usv q_mark => may_be_null (some .UsvString) q_mark

mutual

/-- Embeds `impl ToIdlType for Type` (idl_type.rs lines 74-81); the
`Union` payload is `MayBeNull<UnionType>`.  `fuel` bounds the recursion
depth through typedef expansion (the Rust recursion consumes call
stack); every recursive call decreases it. -/
def WType.to_idl_type : Nat → WType → FirstPassRecord → Option IdlType
  | 0, _, _ => none
  | fuel+1, .single t, record => WSingleType.to_idl_type fuel t record
  | fuel+1, .union t q_mark, record =>
      may_be_null (WUnionType.to_idl_type fuel t record) q_mark
termination_by structural fuel _ _ => fuel

/-- Embeds `impl ToIdlType for SingleType` (idl_type.rs lines 83-90);
`Any` is the unit terminal `term::Any`. -/
def WSingleType.to_idl_type : Nat → WSingleType → FirstPassRecord → Option IdlType
  | 0, _, _ => none
  | _fuel+1, .any, _ => some IdlType.Any
  | fuel+1, .nonAny t, record => WNonAnyType.to_idl_type fuel t record
termination_by structural fuel _ _ => fuel

/-- Embeds `impl ToIdlType for NonAnyType` (idl_type.rs lines 92-124);
the unit terminal variants (lines 299-336) resolve to their canonical
leaf inside their `MayBeNull` wrapper. -/
def WNonAnyType.to_idl_type : Nat → WNonAnyType → FirstPassRecord → Option IdlType
  | 0, _, _ => none
  | fuel+1, .promise t, record => WPromiseType.to_idl_type fuel t record
  | _fuel+1, .integer t q_mark, record =>
      may_be_null (t.to_idl_type record) q_mark
  | _fuel+1, .floatingPoint t q_mark, record =>
      may_be_null (t.to_idl_type record) q_mark
  | _fuel+1, .boolean q_mark, _ => may_be_null (some .Boolean) q_mark
  | _fuel+1, .byte q_mark, _ => may_be_null (some .Byte) q_mark
  | _fuel+1, .octet q_mark, _ => may_be_null (some .Octet) q_mark
  | _fuel+1, .byteString q_mark, _ => may_be_null (some .ByteString) q_mark
  | _fuel+1, .domString q_mark, _ => may_be_null (some .DomString) q_mark
  | _fuel+1, .usvString q_mark, _ => may_be_null (some .UsvString) q_mark
  | fuel+1, .sequence t q_mark, record =>
      may_be_null (WSequenceType.to_idl_type fuel t record) q_mark
  | _fuel+1, .object q_mark, _ => may_be_null (some .Object) q_mark
  | _fuel+1, .symbol q_mark, _ => may_be_null (some .Symbol) q_mark
  | _fuel+1, .error q_mark, _ => may_be_null (some .Error) q_mark
  | _fuel+1, .arrayBuffer q_mark, _ => may_be_null (some .ArrayBuffer) q_mark
  | _fuel+1, .dataView q_mark, _ => may_be_null (some .DataView) q_mark
  | _fuel+1, .int8Array q_mark, _ => may_be_null (some .Int8Array) q_mark
  | _fuel+1, .int16Array q_mark, _ => may_be_null (some .Int16Array) q_mark
  | _fuel+1, .int32Array q_mark, _ => may_be_null (some .Int32Array) q_mark
  | _fuel+1, .uint8Array q_mark, _ => may_be_null (some .Uint8Array) q_mark
  | _fuel+1, .uint16Array q_mark, _ => may_be_null (some .Uint16Array) q_mark
  | _fuel+1, .uint32Array q_mark, _ => may_be_null (some .Uint32Array) q_mark
  | _fuel+1, .uint8ClampedArray q_mark, _ =>
      may_be_null (some .Uint8ClampedArray) q_mark
  | _fuel+1, .float32Array q_mark, _ => may_be_null (some .Float32Array) q_mark
  | _fuel+1, .float64Array q_mark, _ => may_be_null (some .Float64Array) q_mark
  | fuel+1, .frozenArrayType t q_mark, record =>
      may_be_null (WFrozenArrayType.to_idl_type fuel t record) q_mark
  | fuel+1, .recordType t q_mark, record =>
      may_be_null (WRecordType.to_idl_type fuel t record) q_mark
  | fuel+1, .identifier name q_mark, record =>
      may_be_null (identifier_to_idl_type fuel name record) q_mark
termination_by structural fuel _ _ => fuel

/-- Embeds `impl ToIdlType for SequenceType` (idl_type.rs lines 126-130). -/
def WSequenceType.to_idl_type : Nat → WSequenceType → FirstPassRecord → Option IdlType
  | 0, _, _ => none
  | fuel+1, .mk body, record =>
      match WType.to_idl_type fuel body record with
      | none => none
      | some inner => some (IdlType.Sequence inner)
termination_by structural fuel _ _ => fuel

/-- Embeds `impl ToIdlType for FrozenArrayType` (idl_type.rs lines 132-136). -/
def WFrozenArrayType.to_idl_type : Nat → WFrozenArrayType → FirstPassRecord → Option IdlType
  | 0, _, _ => none
  | fuel+1, .mk body, record =>
      match WType.to_idl_type fuel body record with
      | none => none
      | some inner => some (IdlType.FrozenArray inner)
termination_by structural fuel _ _ => fuel

/-- Embeds `impl ToIdlType for PromiseType` (idl_type.rs lines 149-153). -/
def WPromiseType.to_idl_type : Nat → WPromiseType → FirstPassRecord → Option IdlType
  | 0, _, _ => none
  | fuel+1, .mk body, record =>
      match WReturnType.to_idl_type fuel body record with
      | none => none
      | some inner => some (IdlType.Promise inner)
termination_by structural fuel _ _ => fuel

/-- Embeds `impl ToIdlType for RecordType` (idl_type.rs lines 224-233):
key and value resolve independently, key first. -/
def WRecordType.to_idl_type : Nat → WRecordType → FirstPassRecord → Option IdlType
  | 0, _, _ => none
  | _fuel+1, .mk key value, record =>
      match key.to_idl_type record with
      | none => none
      | some k =>
          match WType.to_idl_type _fuel value record with
          | none => none
          | some v => some (IdlType.Record k v)
termination_by structural fuel _ _ => fuel

/-- Embeds `impl ToIdlType for UnionType` (idl_type.rs lines 64-72):
every member resolves in source order, any failure failing the whole
union. -/
def WUnionType.to_idl_type : Nat → WUnionType → FirstPassRecord → Option IdlType
  | 0, _, _ => none
  | fuel+1, .mk list, record =>
      match WUnionMemberType.to_idl_types fuel list record with
      | none => none
      | some idl_types => some (IdlType.Union idl_types)
termination_by structural fuel _ _ => fuel

/-- The member loop of the `UnionType` impl: resolves each member in
order, propagating the first failure. -/
def WUnionMemberType.to_idl_types :
    Nat → List WUnionMemberType → FirstPassRecord → Option (List IdlType)
  | 0, _, _ => none
  | _fuel+1, [], _ => some []
  | fuel+1, t :: ts, record =>
      match WUnionMemberType.to_idl_type fuel t record with
      | none => none
      | some idl_type =>
          match WUnionMemberType.to_idl_types fuel ts record with
          | none => none
          | some rest => some (idl_type :: rest)
termination_by structural fuel _ _ => fuel

/-- Embeds `impl ToIdlType for UnionMemberType` (idl_type.rs lines
245-252). -/
def WUnionMemberType.to_idl_type :
    Nat → WUnionMemberType → FirstPassRecord → Option IdlType
  | 0, _, _ => none
  | fuel+1, .single t, record => WNonAnyType.to_idl_type fuel t record
  | fuel+1, .union t q_mark, record =>
      may_be_null (WUnionType.to_idl_type fuel t record) q_mark
termination_by structural fuel _ _ => fuel

/-- Embeds `impl ToIdlType for ReturnType` (idl_type.rs lines 267-274);
`Void` is the unit terminal `term::Void`. -/
def WReturnType.to_idl_type : Nat → WReturnType → FirstPassRecord → Option IdlType
  | 0, _, _ => none
  | _fuel+1, .void, _ => some IdlType.Void
  | fuel+1, .type t, record => WType.to_idl_type fuel t record
termination_by structural fuel _ _ => fuel

/-- Embeds `impl ToIdlType for Identifier` (idl_type.rs lines 282-297):
typedefs resolve recursively through their right-hand side, then known
interfaces, dictionaries and enums in that priority order; an unknown
name emits a non-fatal unrecognized-type warning diagnostic and
resolves to `none`. -/
def identifier_to_idl_type : Nat → String → FirstPassRecord → Option IdlType
  | 0, _, _ => none
  | fuel+1, name, record =>
      match record.typedefs name with
      | some idl_type => WType.to_idl_type fuel idl_type record
      | none =>
          if record.interfaces name then some (IdlType.Interface name)
          else if record.dictionaries name then some (IdlType.Dictionary name)
          else if record.enums name then some (IdlType.Enum name)
          else none
termination_by structural fuel _ _ => fuel

end

/-- Embeds `impl ToIdlType for AttributedType` (idl_type.rs lines
276-280): delegates to the wrapped type. -/
def WAttributedType.to_idl_type (fuel : Nat) (type_ : WType)
    (record : FirstPassRecord) : Option IdlType :=
  WType.to_idl_type fuel type_ record

/-- The argument list of the reference `arguments_flatten_test`
(idl_type.rs lines 626-657): a required `(Short or Long)`, an optional
`(sequence<(Byte or Octet)> or LongLong)` and an optional `DOMString`. -/
def exampleArguments : List (IdlType × Bool) :=
  [(IdlType.Union [IdlType.Short, IdlType.Long], false),
   (IdlType.Union
      [IdlType.Sequence (IdlType.Union [IdlType.Byte, IdlType.Octet]),
       IdlType.LongLong],
    true),
   (IdlType.DomString, true)]

/-- A representative sample of twenty-five structurally distinct
canonical types, used to check that descriptive naming is injective over
a small sample set. -/
def sampleTypes : List IdlType :=
  [IdlType.Boolean, IdlType.Byte, IdlType.Octet, IdlType.Short,
   IdlType.UnsignedShort, IdlType.Long, IdlType.UnsignedLong,
   IdlType.LongLong, IdlType.UnsignedLongLong, IdlType.Float,
   IdlType.UnrestrictedFloat, IdlType.Double, IdlType.UnrestrictedDouble,
   IdlType.DomString, IdlType.ByteString, IdlType.UsvString,
   IdlType.Object, IdlType.Symbol, IdlType.Error, IdlType.ArrayBuffer,
   IdlType.DataView, IdlType.Nullable IdlType.Byte,
   IdlType.Sequence IdlType.Long, IdlType.Record IdlType.Byte IdlType.Octet,
   IdlType.Union [IdlType.Short, IdlType.Long]]

/-- A small concrete Symbol Table used to exercise identifier
resolution: one typedef `AliasLong` for `long`, one interface `Node`,
one dictionary `Dict`, one enum `Color`. -/
def exampleRecord : FirstPassRecord where
  typedefs := fun s =>
    if s == "AliasLong" then
      some (WType.single (WSingleType.nonAny
        (WNonAnyType.integer (WIntegerType.long false) false)))
    else none
  interfaces := fun s => s == "Node"
  dictionaries := fun s => s == "Dict"
  enums := fun s => s == "Color"

/-! ## Helper lemmas about the flattener -/

theorem flatten_of_union_free : (t : IdlType) → t.union_free = true → t.flatten = [t]
  | .Nullable u, h => by
      simp only [IdlType.union_free] at h
      simp [IdlType.flatten, flatten_of_union_free u h]
  | .FrozenArray u, h => by
      simp only [IdlType.union_free] at h
      simp [IdlType.flatten, flatten_of_union_free u h]
  | .Sequence u, h => by
      simp only [IdlType.union_free] at h
      simp [IdlType.flatten, flatten_of_union_free u h]
  | .Promise u, h => by
      simp only [IdlType.union_free] at h
      simp [IdlType.flatten, flatten_of_union_free u h]
  | .Record a b, h => by
      simp only [IdlType.union_free, Bool.and_eq_true] at h
      simp [IdlType.flatten, flatten_of_union_free a h.1, flatten_of_union_free b h.2]
  | .Union ts, h => by simp [IdlType.union_free] at h
  | .Boolean, _ | .Byte, _ | .Octet, _ | .Short, _ | .UnsignedShort, _
  | .Long, _ | .UnsignedLong, _ | .LongLong, _ | .UnsignedLongLong, _
  | .Float, _ | .UnrestrictedFloat, _ | .Double, _ | .UnrestrictedDouble, _
  | .DomString, _ | .ByteString, _ | .UsvString, _ | .Object, _ | .Symbol, _
  | .Error, _ | .ArrayBuffer, _ | .DataView, _ | .Int8Array, _ | .Uint8Array, _
  | .Uint8ClampedArray, _ | .Int16Array, _ | .Uint16Array, _ | .Int32Array, _
  | .Uint32Array, _ | .Float32Array, _ | .Float64Array, _
  | .Interface _, _ | .Dictionary _, _ | .Enum _, _ | .Any, _ | .Void, _ => rfl

mutual

theorem union_free_of_mem_flatten : ∀ (t u : IdlType), u ∈ t.flatten → u.union_free = true
  | .Nullable v, u, h => by
      simp only [IdlType.flatten, List.mem_map] at h
      obtain ⟨w, hw, rfl⟩ := h
      simpa [IdlType.union_free] using union_free_of_mem_flatten v w hw
  | .FrozenArray v, u, h => by
      simp only [IdlType.flatten, List.mem_map] at h
      obtain ⟨w, hw, rfl⟩ := h
      simpa [IdlType.union_free] using union_free_of_mem_flatten v w hw
  | .Sequence v, u, h => by
      simp only [IdlType.flatten, List.mem_map] at h
      obtain ⟨w, hw, rfl⟩ := h
      simpa [IdlType.union_free] using union_free_of_mem_flatten v w hw
  | .Promise v, u, h => by
      simp only [IdlType.flatten, List.mem_map] at h
      obtain ⟨w, hw, rfl⟩ := h
      simpa [IdlType.union_free] using union_free_of_mem_flatten v w hw
  | .Record a b, u, h => by
      simp only [IdlType.flatten, List.mem_flatMap, List.mem_map] at h
      obtain ⟨k, hk, v, hv, rfl⟩ := h
      simp [IdlType.union_free, union_free_of_mem_flatten a k hk,
        union_free_of_mem_flatten b v hv]
  | .Union ts, u, h => by
      simp only [IdlType.flatten] at h
      exact union_free_of_mem_flattenList ts u h
  | .Boolean, u, h | .Byte, u, h | .Octet, u, h | .Short, u, h
  | .UnsignedShort, u, h | .Long, u, h | .UnsignedLong, u, h
  | .LongLong, u, h | .UnsignedLongLong, u, h | .Float, u, h
  | .UnrestrictedFloat, u, h | .Double, u, h | .UnrestrictedDouble, u, h
  | .DomString, u, h | .ByteString, u, h | .UsvString, u, h
  | .Object, u, h | .Symbol, u, h | .Error, u, h | .ArrayBuffer, u, h
  | .DataView, u, h | .Int8Array, u, h | .Uint8Array, u, h
  | .Uint8ClampedArray, u, h | .Int16Array, u, h | .Uint16Array, u, h
  | .Int32Array, u, h | .Uint32Array, u, h | .Float32Array, u, h
  | .Float64Array, u, h | .Interface _, u, h | .Dictionary _, u, h
  | .Enum _, u, h | .Any, u, h | .Void, u, h => by
      simp only [IdlType.flatten, List.mem_singleton] at h
      subst h
      rfl

theorem union_free_of_mem_flattenList :
    ∀ (ts : List IdlType) (u : IdlType), u ∈ IdlType.flattenList ts → u.union_free = true
  | t :: ts, u, h => by
      simp only [IdlType.flattenList, List.mem_append] at h
      rcases h with h | h
      · exact union_free_of_mem_flatten t u h
      · exact union_free_of_mem_flattenList ts u h

end

mutual

theorem flatten_ne_nil_of_canonical : ∀ (t : IdlType), t.canonical = true → t.flatten ≠ []
  | .Nullable u, h => by
      simp only [IdlType.canonical] at h
      simp [IdlType.flatten, flatten_ne_nil_of_canonical u h]
  | .FrozenArray u, h => by
      simp only [IdlType.canonical] at h
      simp [IdlType.flatten, flatten_ne_nil_of_canonical u h]
  | .Sequence u, h => by
      simp only [IdlType.canonical] at h
      simp [IdlType.flatten, flatten_ne_nil_of_canonical u h]
  | .Promise u, h => by
      simp only [IdlType.canonical] at h
      simp [IdlType.flatten, flatten_ne_nil_of_canonical u h]
  | .Record a b, h => by
      simp only [IdlType.canonical, Bool.and_eq_true] at h
      have ha := flatten_ne_nil_of_canonical a h.1
      have hb := flatten_ne_nil_of_canonical b h.2
      simp only [IdlType.flatten]
      intro hnil
      rw [List.flatMap_eq_nil_iff] at hnil
      obtain ⟨k, hk⟩ := List.exists_mem_of_ne_nil _ ha
      have := hnil k hk
      rw [List.map_eq_nil_iff] at this
      exact hb this
  | .Union ts, h => by
      simp only [IdlType.canonical, Bool.and_eq_true, decide_eq_true_eq] at h
      have hne : ts ≠ [] := by
        intro hnil; rw [hnil] at h; simp at h
      simp only [IdlType.flatten]
      exact flattenList_ne_nil_of_canonical ts hne h.2
  | .Boolean, _ | .Byte, _ | .Octet, _ | .Short, _ | .UnsignedShort, _
  | .Long, _ | .UnsignedLong, _ | .LongLong, _ | .UnsignedLongLong, _
  | .Float, _ | .UnrestrictedFloat, _ | .Double, _ | .UnrestrictedDouble, _
  | .DomString, _ | .ByteString, _ | .UsvString, _ | .Object, _ | .Symbol, _
  | .Error, _ | .ArrayBuffer, _ | .DataView, _ | .Int8Array, _ | .Uint8Array, _
  | .Uint8ClampedArray, _ | .Int16Array, _ | .Uint16Array, _ | .Int32Array, _
  | .Uint32Array, _ | .Float32Array, _ | .Float64Array, _
  | .Interface _, _ | .Dictionary _, _ | .Enum _, _ | .Any, _ | .Void, _ => by
      simp [IdlType.flatten]

theorem flattenList_ne_nil_of_canonical :
    ∀ (ts : List IdlType), ts ≠ [] → IdlType.canonicalList ts = true →
      IdlType.flattenList ts ≠ []
  | t :: ts, _, h => by
      simp only [IdlType.canonicalList, Bool.and_eq_true] at h
      have := flatten_ne_nil_of_canonical t h.1
      simp only [IdlType.flattenList]
      intro hnil
      rw [List.append_eq_nil] at hnil
      exact this hnil.1

end

theorem flattenList_eq_self_of_all_singleton :
    ∀ (l : List IdlType), (∀ u ∈ l, u.flatten = [u]) → IdlType.flattenList l = l
  | [], _ => rfl
  | t :: ts, h => by
      simp only [IdlType.flattenList]
      rw [h t (List.mem_cons_self t ts),
        flattenList_eq_self_of_all_singleton ts (fun u hu => h u (List.mem_cons_of_mem t hu))]
      rfl

theorem to_syn_type_eq_none_iff (camel_case_ident : String → String) :
    ∀ (t : IdlType) (pos : TypePosition),
      IdlType.to_syn_type camel_case_ident t pos = none ↔ t.unrepresentable = true
  | .Nullable u, pos => by
      have ih := to_syn_type_eq_none_iff camel_case_ident u pos
      simp only [IdlType.to_syn_type, IdlType.unrepresentable]
      rw [← ih]
      cases h : IdlType.to_syn_type camel_case_ident u pos <;> simp [h]
  | .DomString, pos | .ByteString, pos | .UsvString, pos => by
      cases pos <;> simp [IdlType.to_syn_type, IdlType.unrepresentable]
  | .Interface _, pos => by
      cases pos <;> simp [IdlType.to_syn_type, IdlType.unrepresentable]
  | .Boolean, pos | .Byte, pos | .Octet, pos | .Short, pos
  | .UnsignedShort, pos | .Long, pos | .UnsignedLong, pos
  | .LongLong, pos | .UnsignedLongLong, pos | .Float, pos
  | .UnrestrictedFloat, pos | .Double, pos | .UnrestrictedDouble, pos
  | .Object, pos | .Symbol, pos | .Error, pos | .ArrayBuffer, pos
  | .DataView, pos | .Int8Array, pos | .Uint8Array, pos
  | .Uint8ClampedArray, pos | .Int16Array, pos | .Uint16Array, pos
  | .Int32Array, pos | .Uint32Array, pos | .Float32Array, pos
  | .Float64Array, pos | .Dictionary _, pos | .Enum _, pos
  | .FrozenArray _, pos | .Sequence _, pos | .Promise _, pos
  | .Record _ _, pos | .Union _, pos | .Any, pos | .Void, pos => by
      simp [IdlType.to_syn_type, IdlType.unrepresentable]

/-! ## The claims -/

/-- C1 counterexample: the expansion of the reference argument list
contains six two-argument signatures, not the four the claim states
(fourteen total is only consistent with six). -/
theorem C1_counterexample :
    ((flatten exampleArguments).filter (fun s => s.length == 2)).length = 6 ∧
      ¬ ((flatten exampleArguments).filter (fun s => s.length == 2)).length = 4 :=
  ⟨rfl, by decide⟩

/-- C1 (amended: six two-argument signatures, not four): expanding the
reference argument list yields exactly fourteen signatures, none
containing a union, in this order: the two required-only signatures
`[Short]` and `[Long]`, then the six two-argument signatures, then the
six three-argument signatures, shorter signatures first and, among
signatures of equal length, the left argument varying slowest. -/
theorem C1_argument_expansion :
    flatten exampleArguments =
      [[IdlType.Short], [IdlType.Long],
       [IdlType.Short, IdlType.Sequence IdlType.Byte],
       [IdlType.Short, IdlType.Sequence IdlType.Octet],
       [IdlType.Short, IdlType.LongLong],
       [IdlType.Long, IdlType.Sequence IdlType.Byte],
       [IdlType.Long, IdlType.Sequence IdlType.Octet],
       [IdlType.Long, IdlType.LongLong],
       [IdlType.Short, IdlType.Sequence IdlType.Byte, IdlType.DomString],
       [IdlType.Short, IdlType.Sequence IdlType.Octet, IdlType.DomString],
       [IdlType.Short, IdlType.LongLong, IdlType.DomString],
       [IdlType.Long, IdlType.Sequence IdlType.Byte, IdlType.DomString],
       [IdlType.Long, IdlType.Sequence IdlType.Octet, IdlType.DomString],
       [IdlType.Long, IdlType.LongLong, IdlType.DomString]] ∧
      (flatten exampleArguments).all (fun s => s.all IdlType.union_free) = true :=
  ⟨rfl, rfl⟩

/-- C2: for every canonical type (per the spec invariant, every union
member list has at least two elements), flattening returns a non-empty
list, and every element of that list contains no union variant anywhere
in its structure. -/
theorem C2_flatten_total_nonempty (t : IdlType) (h : t.canonical = true) :
    t.flatten ≠ [] ∧ ∀ u ∈ t.flatten, u.union_free = true :=
  ⟨flatten_ne_nil_of_canonical t h, fun u hu => union_free_of_mem_flatten t u hu⟩

/-- C2 witness at the concrete canonical type `(Short or Long)`. -/
theorem C2_witness :
    (IdlType.Union [IdlType.Short, IdlType.Long]).flatten ≠ [] ∧
      ∀ u ∈ (IdlType.Union [IdlType.Short, IdlType.Long]).flatten,
        u.union_free = true :=
  C2_flatten_total_nonempty (IdlType.Union [IdlType.Short, IdlType.Long]) rfl

/-- C3 counterexample: `Nullable (Sequence Byte)` and
`Sequence (Nullable Byte)` are structurally different canonical types
that render to the same descriptive name `opt_i8_sequence`, so the
rendering is not injective over all canonical types. -/
theorem C3_counterexample :
    IdlType.get_type_name (fun s => s) (IdlType.Nullable (IdlType.Sequence IdlType.Byte)) =
      IdlType.get_type_name (fun s => s) (IdlType.Sequence (IdlType.Nullable IdlType.Byte)) ∧
      IdlType.Nullable (IdlType.Sequence IdlType.Byte) ≠
        IdlType.Sequence (IdlType.Nullable IdlType.Byte) :=
  ⟨rfl, fun h => nomatch h⟩

/-- C3 (amended: injectivity over a representative sample, per the spec
testable property, rather than over all canonical types): no two of a
sample of twenty-five structurally distinct canonical types render to
the same descriptive name. -/
theorem C3_sample_names_injective :
    (sampleTypes.map (IdlType.get_type_name (fun s => s))).Nodup ∧
      sampleTypes.Nodup ∧ 20 ≤ sampleTypes.length := by
  have h : (sampleTypes.map (IdlType.get_type_name (fun s => s))).Nodup := by decide
  exact ⟨h, h.of_map, by decide⟩

/-- C4 counterexample: with `A := Union [Byte, Octet]` (a canonical type
that is not union-free), flattening `Record (Union [A, B]) (Union [X, Y])`
yields six records, not the claimed four-element cross product. -/
theorem C4_counterexample :
    (IdlType.Record
        (IdlType.Union [IdlType.Union [IdlType.Byte, IdlType.Octet], IdlType.Short])
        (IdlType.Union [IdlType.Long, IdlType.LongLong])).flatten ≠
      [IdlType.Record (IdlType.Union [IdlType.Byte, IdlType.Octet]) IdlType.Long,
       IdlType.Record (IdlType.Union [IdlType.Byte, IdlType.Octet]) IdlType.LongLong,
       IdlType.Record IdlType.Short IdlType.Long,
       IdlType.Record IdlType.Short IdlType.LongLong] := by
  intro h
  have h6 : (IdlType.Record
      (IdlType.Union [IdlType.Union [IdlType.Byte, IdlType.Octet], IdlType.Short])
      (IdlType.Union [IdlType.Long, IdlType.LongLong])).flatten.length = 6 := rfl
  rw [h] at h6
  exact absurd h6 (by decide)

/-- C4 (amended: for union-free canonical alternatives): flattening
`Record (Union [A, B]) (Union [X, Y])` yields exactly
`[Record A X, Record A Y, Record B X, Record B Y]`, the full cross
product with the key varying slower than the value. -/
theorem C4_record_cross_product (A B X Y : IdlType)
    (hA : A.union_free = true) (hB : B.union_free = true)
    (hX : X.union_free = true) (hY : Y.union_free = true) :
    (IdlType.Record (IdlType.Union [A, B]) (IdlType.Union [X, Y])).flatten =
      [IdlType.Record A X, IdlType.Record A Y,
       IdlType.Record B X, IdlType.Record B Y] := by
  simp [IdlType.flatten, IdlType.flattenList,
    flatten_of_union_free A hA, flatten_of_union_free B hB,
    flatten_of_union_free X hX, flatten_of_union_free Y hY]

/-- C4 witness at the concrete union-free types Byte, Octet, Long,
LongLong. -/
theorem C4_witness :
    (IdlType.Record (IdlType.Union [IdlType.Byte, IdlType.Octet])
        (IdlType.Union [IdlType.Long, IdlType.LongLong])).flatten =
      [IdlType.Record IdlType.Byte IdlType.Long,
       IdlType.Record IdlType.Byte IdlType.LongLong,
       IdlType.Record IdlType.Octet IdlType.Long,
       IdlType.Record IdlType.Octet IdlType.LongLong] :=
  C4_record_cross_product IdlType.Byte IdlType.Octet IdlType.Long IdlType.LongLong
    rfl rfl rfl rfl

/-- C5 counterexample: with `A := Union [Byte, Octet]` (a canonical type
that is not union-free), flattening `Nullable (Union [A, B])` yields
three alternatives, not the claimed `[Nullable A, Nullable B]`. -/
theorem C5_counterexample :
    (IdlType.Nullable
        (IdlType.Union [IdlType.Union [IdlType.Byte, IdlType.Octet], IdlType.Short])).flatten ≠
      [IdlType.Nullable (IdlType.Union [IdlType.Byte, IdlType.Octet]),
       IdlType.Nullable IdlType.Short] := by
  intro h
  have h3 : (IdlType.Nullable
      (IdlType.Union [IdlType.Union [IdlType.Byte, IdlType.Octet], IdlType.Short])).flatten.length = 3 := rfl
  rw [h] at h3
  exact absurd h3 (by decide)

/-- C5 (amended: for union-free canonical alternatives): flattening
`Nullable (Union [A, B])` yields exactly `[Nullable A, Nullable B]` in
that order; and in general flattening a single-argument wrapper
(nullable, frozen-array, sequence, promise) equals flattening the inner
type and re-wrapping each resulting alternative individually, preserving
order. -/
theorem C5_flatten_distributes (A B : IdlType)
    (hA : A.union_free = true) (hB : B.union_free = true) :
    (IdlType.Nullable (IdlType.Union [A, B])).flatten =
        [IdlType.Nullable A, IdlType.Nullable B] ∧
      (∀ t : IdlType, (IdlType.Nullable t).flatten = t.flatten.map IdlType.Nullable) ∧
      (∀ t : IdlType, (IdlType.FrozenArray t).flatten = t.flatten.map IdlType.FrozenArray) ∧
      (∀ t : IdlType, (IdlType.Sequence t).flatten = t.flatten.map IdlType.Sequence) ∧
      (∀ t : IdlType, (IdlType.Promise t).flatten = t.flatten.map IdlType.Promise) := by
  refine ⟨?_, fun t => by simp [IdlType.flatten], fun t => by simp [IdlType.flatten],
    fun t => by simp [IdlType.flatten], fun t => by simp [IdlType.flatten]⟩
  simp [IdlType.flatten, IdlType.flattenList,
    flatten_of_union_free A hA, flatten_of_union_free B hB]

/-- C5 witness at the concrete union-free types Short and DomString. -/
theorem C5_witness :
    (IdlType.Nullable (IdlType.Union [IdlType.Short, IdlType.DomString])).flatten =
      [IdlType.Nullable IdlType.Short, IdlType.Nullable IdlType.DomString] :=
  (C5_flatten_distributes IdlType.Short IdlType.DomString rfl rfl).1

/-- C6: identifier resolution consults the symbol table in priority
order: a typedef resolves recursively through its right-hand side (the
canonical type family has no typedef variant); otherwise a known
interface, then dictionary, then enum yields the corresponding named
leaf; a name present in none of these sets resolves to `none` (the
unresolved-reference outcome), not a fault. -/
theorem C6_identifier_resolution (fuel : Nat) (name : String) (record : FirstPassRecord) :
    (∀ t, record.typedefs name = some t →
        identifier_to_idl_type (fuel+1) name record = WType.to_idl_type fuel t record) ∧
      (record.typedefs name = none → record.interfaces name = true →
        identifier_to_idl_type (fuel+1) name record = some (IdlType.Interface name)) ∧
      (record.typedefs name = none → record.interfaces name = false →
        record.dictionaries name = true →
        identifier_to_idl_type (fuel+1) name record = some (IdlType.Dictionary name)) ∧
      (record.typedefs name = none → record.interfaces name = false →
        record.dictionaries name = false → record.enums name = true →
        identifier_to_idl_type (fuel+1) name record = some (IdlType.Enum name)) ∧
      (record.typedefs name = none → record.interfaces name = false →
        record.dictionaries name = false → record.enums name = false →
        identifier_to_idl_type (fuel+1) name record = none) := by
  refine ⟨?_, ?_, ?_, ?_, ?_⟩ <;> intros <;> simp_all [identifier_to_idl_type]

/-- C6 witness on a concrete symbol table: an unknown name resolves to
`none`, a known interface resolves to its interface leaf, and a typedef
resolves through its right-hand side. -/
theorem C6_witness :
    identifier_to_idl_type 1 "Unknown" exampleRecord = none ∧
      identifier_to_idl_type 1 "Node" exampleRecord = some (IdlType.Interface "Node") ∧
      identifier_to_idl_type 4 "AliasLong" exampleRecord = some IdlType.Long := by
  refine ⟨(C6_identifier_resolution 0 "Unknown" exampleRecord).2.2.2.2 rfl rfl rfl rfl,
    (C6_identifier_resolution 0 "Node" exampleRecord).2.1 rfl rfl, ?_⟩
  have h := (C6_identifier_resolution 3 "AliasLong" exampleRecord).1
    (WType.single (WSingleType.nonAny
      (WNonAnyType.integer (WIntegerType.long false) false))) rfl
  rw [h]
  rfl

/-- C7 counterexample: `Void` is outside the claimed set of unmapped
types, yet `to_syn_type` returns `none` for it in both usage positions. -/
theorem C7_counterexample :
    IdlType.Void.spec_unrepresentable = false ∧
      IdlType.to_syn_type (fun s => s) IdlType.Void TypePosition.Argument = none ∧
      IdlType.to_syn_type (fun s => s) IdlType.Void TypePosition.Return = none :=
  ⟨rfl, rfl, rfl⟩

/-- C7 (amended: the unmapped set also contains `void`): for both usage
positions, `to_syn_type` returns `none` precisely for frozen-array,
sequence, promise, record, union, symbol, error, data-view and void,
with nullable propagating the status of its inner type; every other
canonical type receives a mapping. -/
theorem C7_to_syn_type_none_characterization (camel_case_ident : String → String)
    (t : IdlType) (pos : TypePosition) :
    IdlType.to_syn_type camel_case_ident t pos = none ↔ t.unrepresentable = true :=
  to_syn_type_eq_none_iff camel_case_ident t pos

/-- C8: resolving a nullable-capable (`MayBeNull`) node wraps the
resolved inner type in `Nullable` exactly when the `?` marker is
present; when the marker is absent the resolved inner type passes
through unchanged. -/
theorem C8_may_be_null_wraps_iff_marker (inner_idl_type : Option IdlType) (q_mark : Bool) :
    may_be_null inner_idl_type q_mark =
      if q_mark then inner_idl_type.map IdlType.Nullable else inner_idl_type := by
  cases inner_idl_type <;> cases q_mark <;> simp [may_be_null]

/-- C9: flattening is idempotent: every element of `t.flatten` flattens
to the singleton of itself, and concatenating the flattenings of all
elements of `t.flatten` gives back `t.flatten` unchanged. -/
theorem C9_flatten_idempotent (t : IdlType) :
    (∀ u ∈ t.flatten, u.flatten = [u]) ∧
      IdlType.flattenList t.flatten = t.flatten := by
  have h : ∀ u ∈ t.flatten, u.flatten = [u] := fun u hu =>
    flatten_of_union_free u (union_free_of_mem_flatten t u hu)
  exact ⟨h, flattenList_eq_self_of_all_singleton _ h⟩

/-- C9 witness at the concrete type `(Short or Long)` and its first
flattened element `Short`. -/
theorem C9_witness :
    IdlType.Short.flatten = [IdlType.Short] ∧
      IdlType.flattenList ((IdlType.Union [IdlType.Short, IdlType.Long]).flatten) =
        (IdlType.Union [IdlType.Short, IdlType.Long]).flatten :=
  ⟨(C9_flatten_idempotent (IdlType.Union [IdlType.Short, IdlType.Long])).1
      IdlType.Short (List.mem_cons_self _ _),
   (C9_flatten_idempotent (IdlType.Union [IdlType.Short, IdlType.Long])).2⟩

/-- C10: expanding an empty argument list yields exactly one
possibility, the empty signature. -/
theorem C10_empty_argument_list :
    flatten ([] : List (IdlType × Bool)) = [[]] := rfl

end Webidl
